import Mathlib

/-!
Verification development for the news/market signal pipeline
(`src/market.py`, `src/ai_analyze.py`, `src/main.py`, `src/history.py`).

Numbers: Python floats are modelled by exact rationals (`ℚ`); quantities that
pass through `math.sqrt` (the Bollinger standard deviation) live in `ℝ`.
Python integers are modelled by `ℤ`.
-/

namespace SignalPipeline

/-- Python's built-in `round` on a number already scaled: round-half-to-even
(banker's rounding), as documented for `round`.  Generic over the field so the
same function serves `ℚ` and `ℝ`. -/
def pyRound {α : Type} [LinearOrderedField α] [FloorRing α] (x : α) : ℤ :=
  let f := ⌊x⌋
  if x - (f : α) < 1 / 2 then f
  else if (1 : α) / 2 < x - (f : α) then f + 1
  else if f % 2 = 0 then f else f + 1

/-- Python's `round(x, 2)`: round to the nearest multiple of `1/100`
(ties to even). -/
def round2 {α : Type} [LinearOrderedField α] [FloorRing α] (x : α) : α :=
  ((pyRound (x * 100) : ℤ) : α) / 100

/-- Embedding of `pandas.Series.mean` on a list of values. -/
def mean (l : List ℚ) : ℚ := l.sum / l.length

/-- Embedding of `close.diff().dropna()`: consecutive day-over-day differences. -/
def diffs (close : List ℚ) : List ℚ :=
  List.zipWith (fun a b => b - a) close close.tail

/-- One step of Wilder's smoothing: `avg = (avg*(period-1) + value) / period`
(`src/market.py` lines 41-42). -/
def wilder (period : ℕ) (avg v : ℚ) : ℚ :=
  (avg * ((period : ℚ) - 1) + v) / (period : ℚ)

/-- The `gains` series of `_compute_rsi`: positive deltas, zero floor. -/
def rsiGains (close : List ℚ) : List ℚ := (diffs close).map (fun d => max d 0)

/-- The `losses` series of `_compute_rsi`: absolute values of negative
deltas, zero floor. -/
def rsiLosses (close : List ℚ) : List ℚ := (diffs close).map (fun d => max (-d) 0)

/-- The final `(avg_gain, avg_loss)` pair of `_compute_rsi`
(`src/market.py` lines 35-42): seed by the simple mean of the first `period`
changes, then Wilder smoothing over the rest.  The source updates both
averages in a single loop over `range(period, len(gains))`; the two updates
are independent, which the paired fold makes explicit. -/
def rsiAvgs (close : List ℚ) (period : ℕ) : ℚ × ℚ :=
  let avgGainSeed := ((rsiGains close).take period).sum / (period : ℚ)
  let avgLossSeed := ((rsiLosses close).take period).sum / (period : ℚ)
  (List.zip ((rsiGains close).drop period) ((rsiLosses close).drop period)).foldl
    (fun p gl => (wilder period p.1 gl.1, wilder period p.2 gl.2))
    (avgGainSeed, avgLossSeed)

/-- Embedding of `_compute_rsi` from `src/market.py` (lines 20-48). -/
def _compute_rsi (close : List ℚ) (period : ℕ := 14) : ℚ :=
  if close.length < period + 1 then 50
  else
    let avgs := rsiAvgs close period
    if avgs.2 = 0 then 100
    else
      let rs := avgs.1 / avgs.2
      round2 (100 - 100 / (1 + rs))

/-- Sample variance with `ddof=1` (the square of `pandas.Series.std(ddof=1)`):
`Σ (x - mean)² / (n - 1)`. -/
def sampleVar (l : List ℚ) : ℚ :=
  (l.map (fun x => (x - mean l) ^ 2)).sum / ((l.length : ℚ) - 1)

/-- Embedding of `series.tail(n)`: the last `n` elements. -/
def listTail (l : List ℚ) (n : ℕ) : List ℚ := l.drop (l.length - n)

open Classical in
/-- Embedding of `_compute_bollinger_bands` from `src/market.py` (lines 51-79).
Returns `(bb_upper, bb_middle, bb_lower, bb_position)`.  The standard
deviation is the real square root of the sample variance, so the band values
live in `ℝ`; the position compares the last close against the *unrounded*
bands, exactly as the source does. -/
noncomputable def _compute_bollinger_bands (close : List ℚ) (period : ℕ := 20)
    (numStd : ℚ := 2) : ℝ × ℝ × ℝ × String :=
  let window := min period close.length
  let windowData := listTail close window
  let middle : ℚ := mean windowData
  let std : ℝ := if 1 < window then Real.sqrt ((sampleVar windowData : ℚ) : ℝ) else 0
  let upper : ℝ := (middle : ℝ) + (numStd : ℝ) * std
  let lower : ℝ := (middle : ℝ) - (numStd : ℝ) * std
  let last : ℚ := close.getLastD 0
  let position : String :=
    if (last : ℝ) > upper then "above_upper"
    else if (last : ℝ) < lower then "below_lower"
    else "inside"
  (round2 upper, round2 middle, round2 lower, position)

/-- The `MarketData` dataclass from `src/market.py` (lines 82-101).  The
newer generation of the module adds `vol_10d_avg`/`vol_vs_avg` fields (used by
callers and tests); they are not needed by the claims about this structure. -/
structure MarketData where
  ticker : String
  last_close : ℚ
  last_close_date : String
  sma_7 : ℚ
  sma_21 : ℚ
  close_vs_sma7 : String
  return_7d_pct : ℚ
  rsi_14 : ℚ
  bb_upper : ℚ
  bb_middle : ℚ
  bb_lower : ℚ
  bb_position : String
  prices_available : ℤ
deriving DecidableEq, Repr

/-- Embedding of `sma_7 = float(close.tail(7).mean())` from `fetch_market_data`
(`src/market.py` line 131). -/
def sma7 (close : List ℚ) : ℚ := mean (listTail close 7)

/-- Embedding of `close_vs_sma7 = "above" if last_close > sma_7 else "below"` from
`fetch_market_data` (`src/market.py` line 134); `last_close` is
`close.iloc[-1]`. -/
def closeVsSma7 (close : List ℚ) : String :=
  if close.getLastD 0 > sma7 close then "above" else "below"

/-- Modelled from the spec: `_compute_volume` (period 10) is referenced by the
tests and by `_build_prompt`/`build_report` but its implementation is missing
from `src/market.py` (only the older generation of the module is present).
Spec §4.1: window = last min(10, available) volume points; avg = mean of
window; ratio of the most recent day's volume to avg: `> 1.5 → "high"`,
`< 0.75 → "low"`, otherwise `"normal"`; a zero average classifies as
`"normal"` rather than dividing by zero. -/
def _compute_volume (volumes : List ℚ) : ℚ × String :=
  let window := listTail volumes 10
  let avg := mean window
  let last := volumes.getLastD 0
  if avg = 0 then (avg, "normal")
  else if last / avg > 3 / 2 then (avg, "high")
  else if last / avg < 3 / 4 then (avg, "low")
  else (avg, "normal")

/-- The `Article` dataclass from `src/news.py`. -/
structure Article where
  title : String
  source : String
  published : String
  summary : String
  url : String
deriving DecidableEq, Repr

/-- The `AnalysisResult` dataclass from `src/ai_analyze.py` (lines 43-60). -/
structure AnalysisResult where
  news_sentiment : String
  key_drivers : List String
  risk_factors : List String
  directional_bias : String
  confidence_0_100 : ℤ
  one_paragraph_rationale : String
deriving DecidableEq, Repr

/-- The set `VALID_SENTIMENTS` from `src/ai_analyze.py` line 39. -/
def VALID_SENTIMENTS : List String := ["positive", "negative", "mixed", "neutral"]

/-- The set `VALID_BIASES` from `src/ai_analyze.py` line 40. -/
def VALID_BIASES : List String := ["likely_up", "likely_down", "uncertain"]

/-- Embedding of `_apply_confidence_threshold` from `src/ai_analyze.py` (lines 205-212). -/
def _apply_confidence_threshold (result : AnalysisResult) (threshold : ℤ) :
    AnalysisResult :=
  if result.confidence_0_100 < threshold then
    { result with directional_bias := "uncertain" }
  else result

/-- Embedding of `combine_signals` from `src/main.py` (lines 21-48);
`_HIGH_CONVICTION_THRESHOLD = 70` (line 18). -/
def combine_signals (ai : AnalysisResult) (market : MarketData) : String :=
  let bullish :=
    ai.directional_bias = "likely_up" ∧ market.close_vs_sma7 = "above" ∧
      market.return_7d_pct > 0
  let bearish :=
    ai.directional_bias = "likely_down" ∧ market.close_vs_sma7 = "below" ∧
      market.return_7d_pct < 0
  let highConviction := ai.confidence_0_100 ≥ 70
  if bullish then (if highConviction then "high_conviction_up" else "likely_up")
  else if bearish then
    (if highConviction then "high_conviction_down" else "likely_down")
  else "uncertain"

/-- The non-finite floats Python's `json.loads` accepts by default:
`NaN`, `Infinity` and `-Infinity`. -/
inductive PyNonFinite where
  | nan : PyNonFinite
  | inf : PyNonFinite
  | ninf : PyNonFinite
deriving DecidableEq, Repr

/-- The values `json.loads` can produce: `None`, `bool`, finite numbers
(modelled by `ℚ`), the non-finite floats `NaN`/`Infinity`/`-Infinity` (which
`json.loads` accepts by default), strings, lists, and dicts (as key-value
lists; `json.loads` keeps the last value for a duplicated key). -/
inductive Json where
  | null : Json
  | bool : Bool → Json
  | num : ℚ → Json
  | nonfinite : PyNonFinite → Json
  | str : String → Json
  | arr : List Json → Json
  | obj : List (String × Json) → Json

/-- The exceptions `_parse_analysis` can raise: `json.JSONDecodeError` from
`json.loads`, `AttributeError` from `.get` on a non-dict, `TypeError` from
an `in`-test on an unhashable value, and `ValueError`/`OverflowError` from
`int()` on NaN/±Infinity. -/
inductive PyErr where
  | jsonDecode : PyErr
  | attributeError : PyErr
  | typeError : PyErr
  | valueError : PyErr
  | overflowError : PyErr
deriving DecidableEq, Repr

/-- Embedding of `data.get(key, default)` without the default: returns the value stored for
`key` (last occurrence wins, as in `json.loads`). -/
def jGet (j : Json) (key : String) : Option Json :=
  match j with
  | .obj kvs => (kvs.reverse.find? (fun kv => kv.1 == key)).map (fun kv => kv.2)
  | _ => none

/-- Whether the value is a Python dict. -/
def Json.isObj : Json → Bool
  | .obj _ => true
  | _ => false

/-- Whether the value is a Python list. -/
def Json.isArr : Json → Bool
  | .arr _ => true
  | _ => false

/-- Python lists and dicts are unhashable: an `in`-test against a set raises
`TypeError` on them.  Every other `json.loads` value is hashable. -/
def Json.unhashable : Json → Bool
  | .arr _ => true
  | .obj _ => true
  | _ => false

mutual
/-- Python's `repr` of a `json.loads` value (the numeric rendering is
idealized; no claim depends on the exact text of a stringified number). -/
def pyRepr : Json → String
  | .null => "None"
  | .bool true => "True"
  | .bool false => "False"
  | .num q => toString q
  | .nonfinite .nan => "nan"
  | .nonfinite .inf => "inf"
  | .nonfinite .ninf => "-inf"
  | .str s => "\x27" ++ s ++ "\x27"
  | .arr l => "[" ++ pyReprSeq l ++ "]"
  | .obj kvs => "\x7b" ++ pyReprKVs kvs ++ "\x7d"

/-- Comma-separated `repr`s of list elements. -/
def pyReprSeq : List Json → String
  | [] => ""
  | [j] => pyRepr j
  | j :: rest => pyRepr j ++ ", " ++ pyReprSeq rest

/-- Comma-separated `repr`s of dict items. -/
def pyReprKVs : List (String × Json) → String
  | [] => ""
  | [(k, v)] => "\x27" ++ k ++ "\x27: " ++ pyRepr v
  | (k, v) :: rest => "\x27" ++ k ++ "\x27: " ++ pyRepr v ++ ", " ++ pyReprKVs rest
end

/-- Python's `str` of a `json.loads` value: the string itself for strings,
`repr` otherwise. -/
def pyStr : Json → String
  | .str s => s
  | j => pyRepr j

/-- Python's `int(x)` on a number: truncation toward zero. -/
def pyInt (q : ℚ) : ℤ := if q < 0 then ⌈q⌉ else ⌊q⌋

/-- The sentiment coercion of `_parse_analysis` (lines 138-140): a string
outside `VALID_SENTIMENTS`, or any non-string (never `in` a set of strings),
becomes "neutral". -/
def coerceSentiment (j : Json) : String :=
  match j with
  | .str s => if s ∈ VALID_SENTIMENTS then s else "neutral"
  | _ => "neutral"

/-- The bias coercion of `_parse_analysis` (lines 142-144). -/
def coerceBias (j : Json) : String :=
  match j with
  | .str s => if s ∈ VALID_BIASES then s else "uncertain"
  | _ => "uncertain"

/-- The driver/risk coercion of `_parse_analysis` (lines 146-154): a non-list
becomes the singleton `[str(value)]`, lists are cut to the first 5 entries
and every entry is stringified. -/
def coerceStrList (j : Json) : List String :=
  let asList := match j with
    | .arr l => l
    | j => [Json.str (pyStr j)]
  (asList.take 5).map pyStr

/-- The confidence coercion of `_parse_analysis` (lines 156-159):
`isinstance(confidence, (int, float))` accepts Python bools (an `int`
subclass, `int(True) == 1`) and the non-finite floats that `json.loads`
admits; anything non-numeric is replaced by 50; `int()` then truncates —
raising `ValueError` on NaN and `OverflowError` on ±Infinity — and the
result is clamped to [0, 100]. -/
def coerceConfidence : Json → Except PyErr ℤ
  | .num q => .ok (max 0 (min 100 (pyInt q)))
  | .bool b => .ok (max 0 (min 100 (pyInt (if b then 1 else 0))))
  | .nonfinite .nan => .error .valueError
  | .nonfinite .inf => .error .overflowError
  | .nonfinite .ninf => .error .overflowError
  | _ => .ok (max 0 (min 100 (pyInt 50)))

/-- The validation/coercion part of `_parse_analysis`
(`src/ai_analyze.py` lines 138-170), operating on the value produced by
`json.loads`.  `.get` on a non-dict raises `AttributeError`; the
`in VALID_SENTIMENTS` / `in VALID_BIASES` membership tests raise `TypeError`
when the stored value is unhashable (a list or a dict); `int()` on a
non-finite confidence raises `ValueError`/`OverflowError` (line 159);
everything else only coerces, field by field. -/
def _validate_analysis (data : Json) : Except PyErr AnalysisResult :=
  match data with
  | .obj _ =>
    let sentiment0 := (jGet data "news_sentiment").getD (.str "neutral")
    if sentiment0.unhashable then .error .typeError
    else
      let bias0 := (jGet data "directional_bias").getD (.str "uncertain")
      if bias0.unhashable then .error .typeError
      else
        match coerceConfidence ((jGet data "confidence_0_100").getD (.num 50)) with
        | .error e => .error e
        | .ok confidence =>
          .ok { news_sentiment := coerceSentiment sentiment0,
                key_drivers :=
                  coerceStrList ((jGet data "key_drivers").getD (.arr [])),
                risk_factors :=
                  coerceStrList ((jGet data "risk_factors").getD (.arr [])),
                directional_bias := coerceBias bias0,
                confidence_0_100 := confidence,
                one_paragraph_rationale :=
                  pyStr ((jGet data "one_paragraph_rationale").getD
                    (.str "No rationale provided.")) }
  | _ => .error .attributeError

/-- Embedding of `str.strip()` on a list of characters. -/
def pyStrip (s : List Char) : List Char :=
  ((s.dropWhile Char.isWhitespace).reverse.dropWhile Char.isWhitespace).reverse

/-- The fence character. -/
def backquote : Char := Char.ofNat 96

/-- The fence-stripping prologue of `_parse_analysis`
(`src/ai_analyze.py` lines 128-134): strip whitespace; if the text starts
with a fence, drop through the first newline (or the first 4 characters when
there is no newline), drop a trailing fence, and strip again. -/
def _strip_fences (raw : String) : String :=
  let text := pyStrip raw.toList
  let text :=
    if text.take 3 = [backquote, backquote, backquote] then
      let firstNewline := if '\n' ∈ text then text.findIdx (fun c => c == '\n') else 3
      let text := text.drop (firstNewline + 1)
      let text :=
        if text.reverse.take 3 = [backquote, backquote, backquote] then
          text.take (text.length - 3)
        else text
      pyStrip text
    else text
  String.mk text

/-- Embedding of `_parse_analysis` from `src/ai_analyze.py` (lines 126-170), parameterized
by the `json.loads` front end (library code, modelled as a partial parse
function: `none` = `json.JSONDecodeError`). -/
def _parse_analysis (parseJson : String → Option Json) (raw : String) :
    Except PyErr AnalysisResult :=
  match parseJson (_strip_fences raw) with
  | none => .error .jsonDecode
  | some data => _validate_analysis data

/-- Embedding of `_rule_based_fallback` from `src/ai_analyze.py` (lines 177-198).  The
rendering of `ℚ` values inside the synthesized strings is idealized; no claim
depends on it. -/
def _rule_based_fallback (articles : List Article) (market : MarketData) :
    AnalysisResult :=
  let bs : String × String :=
    if market.close_vs_sma7 = "above" ∧ market.return_7d_pct > 0 then
      ("likely_up", "positive")
    else if market.close_vs_sma7 = "below" ∧ market.return_7d_pct < 0 then
      ("likely_down", "negative")
    else ("uncertain", "mixed")
  { news_sentiment := bs.2,
    key_drivers := ["7-day return: " ++ toString market.return_7d_pct ++ "%",
                    "Price vs 7d SMA: " ++ market.close_vs_sma7],
    risk_factors := ["AI analysis unavailable - using basic trend only"],
    directional_bias := bs.1,
    confidence_0_100 := 25,
    one_paragraph_rationale :=
      "Rule-based fallback: The stock is trading " ++ market.close_vs_sma7 ++
      " its 7-day SMA with a " ++ toString market.return_7d_pct ++
      "% weekly return. Without AI sentiment analysis of " ++
      toString articles.length ++ " news articles, confidence is low." }

/-- One iteration of the provider loop in `_analyze_openai`: `none` when the
backend call raised (`except Exception`) or when `_parse_analysis` raised
(`except json.JSONDecodeError` / `except Exception`); the parsed result
otherwise. -/
def attemptOutcome (parseJson : String → Option Json)
    (response : Option String) : Option AnalysisResult :=
  match response with
  | none => none
  | some raw => (_parse_analysis parseJson raw).toOption

/-- Embedding of `_analyze_openai` from `src/ai_analyze.py` (lines 219-252).  The network
backend is modelled by the raw text of each of the two attempts (`none` = the
call raised).  The confidence-threshold override is applied inside the `try`
block, after a successful parse only; the missing-key path and the
after-two-failures path return `_rule_based_fallback` directly. -/
def _analyze_openai (parseJson : String → Option Json) (hasApiKey : Bool)
    (response1 response2 : Option String) (articles : List Article)
    (market : MarketData) (confidenceThreshold : ℤ) : AnalysisResult :=
  if ¬hasApiKey then _rule_based_fallback articles market
  else
    match attemptOutcome parseJson response1 with
    | some result => _apply_confidence_threshold result confidenceThreshold
    | none =>
      match attemptOutcome parseJson response2 with
      | some result => _apply_confidence_threshold result confidenceThreshold
      | none => _rule_based_fallback articles market

/-- The record written by `append_signal_record`
(`src/history.py` lines 35-48). -/
structure HistoryRecord where
  run_at : String
  ticker : String
  topic : String
  final_signal : String
  confidence_0_100 : ℤ
  news_sentiment : String
  directional_bias : String
  last_close : ℚ
  last_close_date : String
  return_7d_pct : ℚ
  close_vs_sma7 : String
  rsi_14 : ℚ
deriving DecidableEq, Repr

/-- The record construction in `append_signal_record`
(`src/history.py` lines 35-48). -/
def buildRecord (runAt topic : String) (market : MarketData)
    (ai : AnalysisResult) (finalSignal : String) : HistoryRecord :=
  { run_at := runAt,
    ticker := market.ticker,
    topic := topic,
    final_signal := finalSignal,
    confidence_0_100 := ai.confidence_0_100,
    news_sentiment := ai.news_sentiment,
    directional_bias := ai.directional_bias,
    last_close := market.last_close,
    last_close_date := market.last_close_date,
    return_7d_pct := market.return_7d_pct,
    close_vs_sma7 := market.close_vs_sma7,
    rsi_14 := market.rsi_14 }

/-- A line of `signal_history.jsonl`, modelled by the record its JSON parses
to (`some`), or `none` for a malformed or blank line.  The round-trip of the
standard library's `json.dumps`/`json.loads` on a record is assumed.  An
absent log file behaves as the empty list (`load_history` returns `[]`,
`append` creates the file). -/
abbrev LogLine := Option HistoryRecord

/-- Embedding of `append_signal_record` from `src/history.py` (lines 24-55): one
`json.dumps` line is appended to the log. -/
def append_signal_record (log : List LogLine) (record : HistoryRecord) :
    List LogLine :=
  log ++ [some record]

/-- Embedding of `load_history` from `src/history.py` (lines 58-78): read every line in
order, keep each one that parses, skip (with a warning) each one that does
not. -/
def load_history (log : List LogLine) : List HistoryRecord :=
  log.foldl
    (fun records line =>
      match line with
      | some r => records ++ [r]
      | none => records)
    []

/-- The set `_BULLISH_SIGNALS` from `src/history.py` line 20. -/
def _BULLISH_SIGNALS : List String := ["likely_up", "high_conviction_up"]

/-- The set `_BEARISH_SIGNALS` from `src/history.py` line 21. -/
def _BEARISH_SIGNALS : List String := ["likely_down", "high_conviction_down"]

/-- Embedding of `actual_return_pct = (next_close - signal_close) / signal_close * 100`
(`src/history.py` line 121). -/
def actual_return_pct (signalClose nextClose : ℚ) : ℚ :=
  (nextClose - signalClose) / signalClose * 100

/-- The grading step of `run_backtest` (`src/history.py` lines 123-128):
`some correct?` for a directional signal, `none` for everything else
("uncertain" — excluded from the accuracy calculation). -/
def gradeSignal (signal : String) (ret : ℚ) : Option Bool :=
  if signal ∈ _BULLISH_SIGNALS then some (decide (ret > 0))
  else if signal ∈ _BEARISH_SIGNALS then some (decide (ret < 0))
  else none

/-- The accuracy computation of `_print_backtest_results`
(`src/history.py` lines 151-164): `correct / directional * 100`, printed only
when at least one directional record was evaluated (`none` otherwise). -/
def backtestAccuracy (evaluated : List (Option Bool)) : Option ℚ :=
  let directional := evaluated.filter (fun c => c.isSome)
  let correct := directional.filter (fun c => decide (c = some true))
  if directional.length = 0 then none
  else some ((correct.length : ℚ) / (directional.length : ℚ) * 100)

/-! ## Theorems -/

/-- C3: the confidence-threshold override replaces `directional_bias` with
"uncertain" and leaves every other field unchanged when
`confidence_0_100 < threshold`; at or above the threshold (equality included)
the result is returned unchanged. -/
theorem apply_confidence_threshold_spec (r : AnalysisResult) (t : ℤ) :
    (r.confidence_0_100 < t →
      (_apply_confidence_threshold r t).directional_bias = "uncertain" ∧
      (_apply_confidence_threshold r t).news_sentiment = r.news_sentiment ∧
      (_apply_confidence_threshold r t).key_drivers = r.key_drivers ∧
      (_apply_confidence_threshold r t).risk_factors = r.risk_factors ∧
      (_apply_confidence_threshold r t).confidence_0_100 = r.confidence_0_100 ∧
      (_apply_confidence_threshold r t).one_paragraph_rationale =
        r.one_paragraph_rationale) ∧
    (t ≤ r.confidence_0_100 → _apply_confidence_threshold r t = r) := by
  constructor
  · intro h
    simp [_apply_confidence_threshold, if_pos h]
  · intro h
    simp [_apply_confidence_threshold, if_neg (not_lt.2 h)]

/-- Witness for `apply_confidence_threshold_spec`: a confidence of 30 is
overridden at threshold 40 with the confidence kept, and a confidence of 30
is untouched at threshold 25. -/
theorem apply_confidence_threshold_spec_witness :
    ((_apply_confidence_threshold
        ⟨"positive", ["d"], ["r"], "likely_up", 30, "why"⟩ 40).directional_bias
      = "uncertain" ∧
     (_apply_confidence_threshold
        ⟨"positive", ["d"], ["r"], "likely_up", 30, "why"⟩ 40).confidence_0_100
      = 30) ∧
    _apply_confidence_threshold
        ⟨"positive", ["d"], ["r"], "likely_up", 30, "why"⟩ 25 =
      ⟨"positive", ["d"], ["r"], "likely_up", 30, "why"⟩ := by
  have h₁ := (apply_confidence_threshold_spec
    ⟨"positive", ["d"], ["r"], "likely_up", 30, "why"⟩ 40).1 (by norm_num)
  have h₂ := (apply_confidence_threshold_spec
    ⟨"positive", ["d"], ["r"], "likely_up", 30, "why"⟩ 25).2 (by norm_num)
  exact ⟨⟨h₁.1, h₁.2.2.2.2.1⟩, h₂⟩

/-- C2: `combine_signals` follows the decision table: bullish/bearish
technical confirmation combined with the fixed high-conviction threshold 70,
and "uncertain" whenever neither holds, regardless of confidence. -/
theorem combine_signals_decision_table (ai : AnalysisResult)
    (market : MarketData) :
    (ai.directional_bias = "likely_up" ∧ market.close_vs_sma7 = "above" ∧
        market.return_7d_pct > 0 →
      (ai.confidence_0_100 ≥ 70 →
        combine_signals ai market = "high_conviction_up") ∧
      (ai.confidence_0_100 < 70 → combine_signals ai market = "likely_up")) ∧
    (ai.directional_bias = "likely_down" ∧ market.close_vs_sma7 = "below" ∧
        market.return_7d_pct < 0 →
      (ai.confidence_0_100 ≥ 70 →
        combine_signals ai market = "high_conviction_down") ∧
      (ai.confidence_0_100 < 70 → combine_signals ai market = "likely_down")) ∧
    (¬(ai.directional_bias = "likely_up" ∧ market.close_vs_sma7 = "above" ∧
        market.return_7d_pct > 0) ∧
     ¬(ai.directional_bias = "likely_down" ∧ market.close_vs_sma7 = "below" ∧
        market.return_7d_pct < 0) →
      combine_signals ai market = "uncertain") := by
  refine ⟨fun hb => ⟨fun hc => ?_, fun hc => ?_⟩,
          fun hb => ⟨fun hc => ?_, fun hc => ?_⟩, fun hn => ?_⟩
  · simp only [combine_signals]
    rw [if_pos hb, if_pos hc]
  · simp only [combine_signals]
    rw [if_pos hb, if_neg (by omega)]
  · have hnb : ¬(ai.directional_bias = "likely_up" ∧
        market.close_vs_sma7 = "above" ∧ market.return_7d_pct > 0) := by
      rintro ⟨h1, -, -⟩
      rw [hb.1] at h1
      exact absurd h1 (by decide)
    simp only [combine_signals]
    rw [if_neg hnb, if_pos hb, if_pos hc]
  · have hnb : ¬(ai.directional_bias = "likely_up" ∧
        market.close_vs_sma7 = "above" ∧ market.return_7d_pct > 0) := by
      rintro ⟨h1, -, -⟩
      rw [hb.1] at h1
      exact absurd h1 (by decide)
    simp only [combine_signals]
    rw [if_neg hnb, if_pos hb, if_neg (by omega)]
  · simp only [combine_signals]
    rw [if_neg hn.1, if_neg hn.2]

/-- Witness for `combine_signals_decision_table`: a bullish market with
confidence exactly 70 yields "high_conviction_up", and a conflicting one
yields "uncertain". -/
theorem combine_signals_decision_table_witness :
    combine_signals ⟨"neutral", [], [], "likely_up", 70, "t"⟩
      ⟨"T", 100, "d", 99, 98, "above", 1, 50, 105, 100, 95, "inside", 30⟩ =
      "high_conviction_up" ∧
    combine_signals ⟨"neutral", [], [], "likely_up", 90, "t"⟩
      ⟨"T", 100, "d", 99, 98, "below", -1, 50, 105, 100, 95, "inside", 30⟩ =
      "uncertain" := by
  constructor
  · exact ((combine_signals_decision_table _ _).1
      ⟨rfl, rfl, by norm_num⟩).1 (by norm_num)
  · exact (combine_signals_decision_table _ _).2.2
      ⟨by simp, by simp⟩

/-- C7: `close_vs_sma7` is "above" exactly when the last close is strictly
greater than the 7-day SMA; exact equality is classified "below". -/
theorem close_vs_sma7_spec (close : List ℚ) (h : 7 ≤ close.length) :
    (closeVsSma7 close = "above" ↔ sma7 close < close.getLastD 0) ∧
    (close.getLastD 0 = sma7 close → closeVsSma7 close = "below") := by
  constructor
  · unfold closeVsSma7
    split_ifs with h'
    · exact ⟨fun _ => h', fun _ => rfl⟩
    · constructor
      · intro habs
        exact absurd habs (by decide)
      · intro hlt
        exact absurd hlt h'
  · intro heq
    unfold closeVsSma7
    rw [if_neg]
    rw [heq]
    exact lt_irrefl _

/-- Witness for `close_vs_sma7_spec`: a constant 7-point series has its last
close equal to the SMA and is classified "below". -/
theorem close_vs_sma7_spec_witness :
    closeVsSma7 [1, 1, 1, 1, 1, 1, 1] = "below" :=
  (close_vs_sma7_spec [1, 1, 1, 1, 1, 1, 1] (by norm_num)).2
    (by norm_num [sma7, listTail, mean])

/-- Loading keeps exactly the lines that parse, in order. -/
theorem load_history_eq (log : List LogLine) :
    load_history log = log.filterMap id := by
  have key : ∀ (l : List LogLine) (acc : List HistoryRecord),
      l.foldl
        (fun records line =>
          match line with
          | some r => records ++ [r]
          | none => records)
        acc = acc ++ l.filterMap id := by
    intro l
    induction l with
    | nil => intro acc; simp
    | cons hd tl ih =>
      intro acc
      cases hd with
      | some r => simp [ih]
      | none => simp [ih]
  simpa [load_history] using key log []

/-- C8: appending N records to an absent log and loading returns exactly
those N records in append order, and loading any log returns exactly the
records of its well-formed lines, in order, skipping malformed lines. -/
theorem history_append_load_spec :
    (∀ records : List HistoryRecord,
      load_history (records.foldl append_signal_record []) = records) ∧
    (∀ log : List LogLine, load_history log = log.filterMap id) := by
  constructor
  · intro records
    have key : ∀ (rs : List HistoryRecord) (init : List LogLine),
        rs.foldl append_signal_record init = init ++ rs.map some := by
      intro rs
      induction rs with
      | nil => intro init; simp
      | cons hd tl ih =>
        intro init
        simp [append_signal_record, ih]
    rw [key records [], List.nil_append, load_history_eq]
    simp
  · exact load_history_eq

/-- C9: directional signals are graded correct exactly by the sign of the
actual next-day return, "uncertain" records are excluded from the accuracy
denominator (appending one changes nothing), and accuracy is
correct / directional × 100. -/
theorem backtest_grading_spec :
    (∀ ret : ℚ,
      (gradeSignal "likely_up" ret = some true ↔ 0 < ret) ∧
      (gradeSignal "high_conviction_up" ret = some true ↔ 0 < ret) ∧
      (gradeSignal "likely_down" ret = some true ↔ ret < 0) ∧
      (gradeSignal "high_conviction_down" ret = some true ↔ ret < 0) ∧
      gradeSignal "uncertain" ret = none) ∧
    (∀ evaluated : List (Option Bool),
      backtestAccuracy (evaluated ++ [none]) = backtestAccuracy evaluated) ∧
    (∀ evaluated : List (Option Bool),
      (evaluated.filter (fun c => c.isSome)).length ≠ 0 →
      backtestAccuracy evaluated =
        some (((evaluated.filter (fun c => decide (c = some true))).length : ℚ) /
          ((evaluated.filter (fun c => c.isSome)).length : ℚ) * 100)) := by
  have hff : ∀ evaluated : List (Option Bool),
      (evaluated.filter (fun c => c.isSome)).filter
          (fun c => decide (c = some true)) =
        evaluated.filter (fun c => decide (c = some true)) := by
    intro evaluated
    rw [List.filter_filter]
    apply List.filter_congr
    intro c _
    cases c with
    | none => rfl
    | some b => cases b <;> rfl
  refine ⟨?_, ?_, ?_⟩
  · intro ret
    refine ⟨?_, ?_, ?_, ?_, ?_⟩ <;>
      simp [gradeSignal, _BULLISH_SIGNALS, _BEARISH_SIGNALS]
  · intro evaluated
    simp [backtestAccuracy]
  · intro evaluated h
    simp only [backtestAccuracy, hff]
    rw [if_neg h]

/-- Witness for `backtest_grading_spec`: one correct bullish record, one
incorrect one, and an excluded "uncertain" record give accuracy
1/2 × 100. -/
theorem backtest_grading_spec_witness :
    backtestAccuracy [some true, some false, none] =
      some ((([some true, some false, none].filter
          (fun c => decide (c = some true))).length : ℚ) /
        (([some true, some false, none].filter
          (fun c => c.isSome)).length : ℚ) * 100) :=
  backtest_grading_spec.2.2 [some true, some false, none] (by decide)

/-- C10: the volume classification depends only on the last min(10, n)
points; with a nonzero window average the label is "high" exactly when the
latest volume exceeds 1.5× the average and "low" exactly when it is under
0.75× of it; an all-zero window gives average 0 and "normal". -/
theorem compute_volume_spec :
    (∀ pre win : List ℚ, win.length = 10 →
      _compute_volume (pre ++ win) = _compute_volume win) ∧
    (∀ volumes : List ℚ, (∀ v ∈ listTail volumes 10, v = 0) →
      _compute_volume volumes = (0, "normal")) ∧
    (∀ volumes : List ℚ, mean (listTail volumes 10) ≠ 0 →
      ((_compute_volume volumes).2 = "high" ↔
        volumes.getLastD 0 / mean (listTail volumes 10) > 3 / 2) ∧
      ((_compute_volume volumes).2 = "low" ↔
        volumes.getLastD 0 / mean (listTail volumes 10) < 3 / 4) ∧
      ((_compute_volume volumes).2 = "normal" ↔
        (¬volumes.getLastD 0 / mean (listTail volumes 10) > 3 / 2 ∧
         ¬volumes.getLastD 0 / mean (listTail volumes 10) < 3 / 4)) ∧
      (_compute_volume volumes).1 = mean (listTail volumes 10)) := by
  refine ⟨?_, ?_, ?_⟩
  · intro pre win hlen
    have hwin : listTail (pre ++ win) 10 = win := by
      simp [listTail, hlen, List.drop_left]
    have hwin' : listTail win 10 = win := by
      simp [listTail, hlen]
    have hlast : (pre ++ win).getLastD 0 = win.getLastD 0 := by
      have hne : win ≠ [] := by
        intro habs
        rw [habs] at hlen
        simp at hlen
      rw [List.getLastD_eq_getLast?, List.getLastD_eq_getLast?,
        List.getLast?_append_of_ne_nil pre hne]
    simp only [_compute_volume, hwin, hwin', hlast]
  · intro volumes hz
    have hs : mean (listTail volumes 10) = 0 := by
      unfold mean
      rw [List.sum_eq_zero hz]
      simp
    simp [_compute_volume, hs]
  · intro volumes h
    simp only [_compute_volume]
    rw [if_neg h]
    by_cases h1 : volumes.getLastD 0 / mean (listTail volumes 10) > 3 / 2
    · rw [if_pos h1]
      refine ⟨⟨fun _ => h1, fun _ => rfl⟩, ?_,
        ⟨fun habs => absurd (show "high" = "normal" from habs) (by decide),
          fun hn => absurd h1 hn.1⟩, rfl⟩
      constructor
      · intro habs
        exact absurd (show "high" = "low" from habs) (by decide)
      · intro hlt
        exact absurd h1 (by push_neg; linarith)
    · rw [if_neg h1]
      by_cases h2 : volumes.getLastD 0 / mean (listTail volumes 10) < 3 / 4
      · rw [if_pos h2]
        exact ⟨⟨fun habs => absurd (show "low" = "high" from habs) (by decide),
            fun hgt => absurd hgt h1⟩,
          ⟨fun _ => h2, fun _ => rfl⟩,
          ⟨fun habs => absurd (show "low" = "normal" from habs) (by decide),
            fun hn => absurd h2 hn.2⟩, rfl⟩
      · rw [if_neg h2]
        exact ⟨⟨fun habs => absurd (show "normal" = "high" from habs) (by decide),
            fun hgt => absurd hgt h1⟩,
          ⟨fun habs => absurd (show "normal" = "low" from habs) (by decide),
            fun hlt => absurd hlt h2⟩,
          ⟨fun _ => ⟨h1, h2⟩, fun _ => rfl⟩, rfl⟩

/-- Witness for `compute_volume_spec`: only the last 10 of 11 points count;
an all-zero series is "normal" with average 0; a constant window has a
nonzero average, ratio 1, and is classified "normal". -/
theorem compute_volume_spec_witness :
    _compute_volume ([2] ++ [1, 1, 1, 1, 1, 1, 1, 1, 1, 1]) =
      _compute_volume [1, 1, 1, 1, 1, 1, 1, 1, 1, 1] ∧
    _compute_volume [0, 0] = (0, "normal") ∧
    (_compute_volume [1, 1, 1, 1, 1, 1, 1, 1, 1, 1]).2 = "normal" ∧
    (_compute_volume [1, 1, 1, 1, 1, 1, 1, 1, 1, 1]).1 =
      mean (listTail [1, 1, 1, 1, 1, 1, 1, 1, 1, 1] 10) := by
  have h3 := compute_volume_spec.2.2 [1, 1, 1, 1, 1, 1, 1, 1, 1, 1]
    (by norm_num [mean, listTail])
  refine ⟨compute_volume_spec.1 [2] [1, 1, 1, 1, 1, 1, 1, 1, 1, 1] (by norm_num),
    compute_volume_spec.2.1 [0, 0] (by norm_num [listTail]),
    h3.2.2.1.2 ⟨?_, ?_⟩, h3.2.2.2⟩ <;>
    norm_num [mean, listTail, List.getLastD_cons, List.getLastD_nil]

/-- C1 counterexample: with the configured threshold 40 (the default), the
missing-API-key path returns the rule-based fallback whose confidence 25 is
strictly below the threshold, yet its `directional_bias` on a bullish market
is "likely_up", not "uncertain" — the override is never applied to it. -/
theorem fallback_not_thresholded_cex :
    (25 : ℤ) < 40 ∧
    (_analyze_openai (fun _ => none) false none none []
        ⟨"TEST", 100, "2024-01-01", 99, 98, "above", 1, 50, 105, 100, 95,
          "inside", 30⟩ 40).confidence_0_100 = 25 ∧
    (_analyze_openai (fun _ => none) false none none []
        ⟨"TEST", 100, "2024-01-01", 99, 98, "above", 1, 50, 105, 100, 95,
          "inside", 30⟩ 40).directional_bias = "likely_up" := by
  refine ⟨by norm_num, ?_, ?_⟩ <;> rfl

/-- C1 amended: in `_analyze_openai` the confidence-threshold override is
applied only to successfully parsed AI results; every fallback-producing path
(missing API key, or both attempts failing) returns the rule-based fallback
unmodified, whose confidence is fixed at 25 — so a fallback result strictly
below the threshold keeps its rule-derived bias instead of being forced to
"uncertain". -/
theorem fallback_not_thresholded (parseJson : String → Option Json)
    (response1 response2 : Option String) (articles : List Article)
    (market : MarketData) (t : ℤ) :
    _analyze_openai parseJson false response1 response2 articles market t =
      _rule_based_fallback articles market ∧
    (attemptOutcome parseJson response1 = none →
     attemptOutcome parseJson response2 = none →
      _analyze_openai parseJson true response1 response2 articles market t =
        _rule_based_fallback articles market) ∧
    (∀ r, attemptOutcome parseJson response1 = some r →
      _analyze_openai parseJson true response1 response2 articles market t =
        _apply_confidence_threshold r t) ∧
    (_rule_based_fallback articles market).confidence_0_100 = 25 := by
  refine ⟨rfl, ?_, ?_, rfl⟩
  · intro h1 h2
    simp [_analyze_openai, h1, h2]
  · intro r h1
    simp [_analyze_openai, h1]

/-- Witness for `fallback_not_thresholded`: with no parsable attempt the
result is exactly the rule-based fallback. -/
theorem fallback_not_thresholded_witness :
    _analyze_openai (fun _ => none) true none none []
        ⟨"TEST", 100, "2024-01-01", 99, 98, "above", 1, 50, 105, 100, 95,
          "inside", 30⟩ 40 =
      _rule_based_fallback []
        ⟨"TEST", 100, "2024-01-01", 99, 98, "above", 1, 50, 105, 100, 95,
          "inside", 30⟩ :=
  (fallback_not_thresholded (fun _ => none) none none [] _ 40).2.1 rfl rfl

section RoundLemmas

variable {α : Type} [LinearOrderedField α] [FloorRing α]

theorem pyRound_floor_le (x : α) : ⌊x⌋ ≤ pyRound x := by
  simp only [pyRound]
  split_ifs <;> omega

theorem pyRound_le_floor_succ (x : α) : pyRound x ≤ ⌊x⌋ + 1 := by
  simp only [pyRound]
  split_ifs <;> omega

theorem pyRound_nonneg {x : α} (hx : 0 ≤ x) : 0 ≤ pyRound x :=
  le_trans (Int.floor_nonneg.2 hx) (pyRound_floor_le x)

theorem pyRound_le_of_lt {x : α} {n : ℤ} (h : x < (n : α)) : pyRound x ≤ n := by
  have h1 := pyRound_le_floor_succ x
  have h2 : ⌊x⌋ < n := Int.floor_lt.2 h
  omega

theorem pyRound_mono {x y : α} (h : x ≤ y) : pyRound x ≤ pyRound y := by
  rcases lt_or_le ⌊x⌋ ⌊y⌋ with hf | hf
  · have h1 := pyRound_le_floor_succ x
    have h2 := pyRound_floor_le y
    omega
  · have hfe : ⌊x⌋ = ⌊y⌋ := le_antisymm (Int.floor_mono h) hf
    have hxy : x - ((⌊y⌋ : ℤ) : α) ≤ y - ((⌊y⌋ : ℤ) : α) := by linarith
    simp only [pyRound, hfe]
    split_ifs <;> first | omega | linarith

theorem pyRound_zero : pyRound (0 : α) = 0 := by
  simp only [pyRound]
  norm_num

theorem round2_nonneg {x : α} (hx : 0 ≤ x) : 0 ≤ round2 x := by
  unfold round2
  apply div_nonneg _ (by norm_num)
  exact_mod_cast pyRound_nonneg (by positivity : (0 : α) ≤ x * 100)

theorem round2_le_100 {x : α} (h : x < 100) : round2 x ≤ 100 := by
  unfold round2
  rw [div_le_iff (by norm_num : (0 : α) < 100)]
  have hb : pyRound (x * 100) ≤ (10000 : ℤ) :=
    pyRound_le_of_lt (by push_cast; linarith)
  calc ((pyRound (x * 100) : ℤ) : α) ≤ ((10000 : ℤ) : α) := by exact_mod_cast hb
    _ = 100 * 100 := by norm_num

theorem round2_mono {x y : α} (h : x ≤ y) : round2 x ≤ round2 y := by
  unfold round2
  apply (div_le_div_iff_of_pos_right (by norm_num : (0 : α) < 100)).2
  exact_mod_cast pyRound_mono (by linarith : x * 100 ≤ y * 100)

theorem round2_zero : round2 (0 : α) = 0 := by
  unfold round2
  rw [zero_mul, pyRound_zero]
  norm_num

end RoundLemmas

theorem pyRound_ratCast (q : ℚ) : pyRound ((q : ℝ)) = pyRound q := by
  simp only [pyRound, Rat.floor_cast]
  have he : (q : ℝ) - ((⌊q⌋ : ℤ) : ℝ) = (((q - ((⌊q⌋ : ℤ) : ℚ)) : ℚ) : ℝ) := by
    push_cast
    ring
  have hh : ((1 : ℝ) / 2) = (((1 : ℚ) / 2 : ℚ) : ℝ) := by norm_num
  have hc1 : ((q : ℝ) - ((⌊q⌋ : ℤ) : ℝ) < 1 / 2) ↔
      (q - ((⌊q⌋ : ℤ) : ℚ) < 1 / 2) := by
    rw [he, hh, Rat.cast_lt]
  have hc2 : ((1 : ℝ) / 2 < (q : ℝ) - ((⌊q⌋ : ℤ) : ℝ)) ↔
      ((1 : ℚ) / 2 < q - ((⌊q⌋ : ℤ) : ℚ)) := by
    rw [he, hh, Rat.cast_lt]
  by_cases h1 : q - ((⌊q⌋ : ℤ) : ℚ) < 1 / 2
  · rw [if_pos h1, if_pos (hc1.2 h1)]
  · rw [if_neg h1, if_neg (fun hh => h1 (hc1.1 hh))]
    by_cases h2 : (1 : ℚ) / 2 < q - ((⌊q⌋ : ℤ) : ℚ)
    · rw [if_pos h2, if_pos (hc2.2 h2)]
    · rw [if_neg h2, if_neg (fun hh => h2 (hc2.1 hh))]

theorem round2_ratCast (q : ℚ) : round2 ((q : ℝ)) = ((round2 q : ℚ) : ℝ) := by
  unfold round2
  rw [show ((q : ℝ) * 100) = (((q * 100 : ℚ)) : ℝ) by push_cast; ring,
    pyRound_ratCast]
  push_cast
  ring

theorem diffs_pos {close : List ℚ} (h : close.Chain' (· < ·)) :
    ∀ d ∈ diffs close, 0 < d := by
  induction close with
  | nil => simp [diffs]
  | cons a t ih =>
    cases t with
    | nil => simp [diffs]
    | cons b t' =>
      rw [List.chain'_cons] at h
      intro d hd
      simp only [diffs, List.tail_cons, List.zipWith_cons_cons] at hd
      rcases List.mem_cons.1 hd with rfl | h2
      · linarith [h.1]
      · exact ih h.2 d (by simpa [diffs] using h2)

theorem diffs_neg {close : List ℚ} (h : close.Chain' (· > ·)) :
    ∀ d ∈ diffs close, d < 0 := by
  induction close with
  | nil => simp [diffs]
  | cons a t ih =>
    cases t with
    | nil => simp [diffs]
    | cons b t' =>
      rw [List.chain'_cons] at h
      intro d hd
      simp only [diffs, List.tail_cons, List.zipWith_cons_cons] at hd
      rcases List.mem_cons.1 hd with rfl | h2
      · have := h.1
        simp only [gt_iff_lt] at this
        linarith
      · exact ih h.2 d (by simpa [diffs] using h2)

theorem rsiGains_nonneg (close : List ℚ) : ∀ v ∈ rsiGains close, 0 ≤ v := by
  intro v hv
  simp only [rsiGains, List.mem_map] at hv
  obtain ⟨d, -, rfl⟩ := hv
  exact le_max_right d 0

theorem rsiLosses_nonneg (close : List ℚ) : ∀ v ∈ rsiLosses close, 0 ≤ v := by
  intro v hv
  simp only [rsiLosses, List.mem_map] at hv
  obtain ⟨d, -, rfl⟩ := hv
  exact le_max_right (-d) 0

theorem rsiLosses_zero_of_inc {close : List ℚ} (h : close.Chain' (· < ·)) :
    ∀ v ∈ rsiLosses close, v = 0 := by
  intro v hv
  simp only [rsiLosses, List.mem_map] at hv
  obtain ⟨d, hd, rfl⟩ := hv
  have := diffs_pos h d hd
  exact max_eq_right (by linarith)

theorem rsiGains_zero_of_dec {close : List ℚ} (h : close.Chain' (· > ·)) :
    ∀ v ∈ rsiGains close, v = 0 := by
  intro v hv
  simp only [rsiGains, List.mem_map] at hv
  obtain ⟨d, hd, rfl⟩ := hv
  have := diffs_neg h d hd
  exact max_eq_right (by linarith)

theorem rsiLosses_pos_of_dec {close : List ℚ} (h : close.Chain' (· > ·)) :
    ∀ v ∈ rsiLosses close, 0 < v := by
  intro v hv
  simp only [rsiLosses, List.mem_map] at hv
  obtain ⟨d, hd, rfl⟩ := hv
  have := diffs_neg h d hd
  rw [max_eq_left (by linarith)]
  linarith

theorem rsiGains_length (close : List ℚ) :
    (rsiGains close).length = close.length - 1 := by
  simp only [rsiGains, diffs, List.length_map, List.length_zipWith,
    List.length_tail]
  omega

theorem rsiLosses_length (close : List ℚ) :
    (rsiLosses close).length = close.length - 1 := by
  simp only [rsiLosses, diffs, List.length_map, List.length_zipWith,
    List.length_tail]
  omega

theorem wilder_nonneg {period : ℕ} (hp : 1 ≤ period) {a v : ℚ} (ha : 0 ≤ a)
    (hv : 0 ≤ v) : 0 ≤ wilder period a v := by
  unfold wilder
  have hp' : (1 : ℚ) ≤ (period : ℚ) := by exact_mod_cast hp
  apply div_nonneg
  · have := mul_nonneg ha (by linarith : (0 : ℚ) ≤ (period : ℚ) - 1)
    linarith
  · linarith

theorem wilder_zero (period : ℕ) : wilder period 0 0 = 0 := by
  unfold wilder
  simp

theorem rsiFold_nonneg (period : ℕ) (hp : 1 ≤ period) :
    ∀ (l : List (ℚ × ℚ)) (a b : ℚ), 0 ≤ a → 0 ≤ b →
      (∀ p ∈ l, 0 ≤ p.1 ∧ 0 ≤ p.2) →
      0 ≤ (l.foldl
        (fun p gl => (wilder period p.1 gl.1, wilder period p.2 gl.2))
        (a, b)).1 ∧
      0 ≤ (l.foldl
        (fun p gl => (wilder period p.1 gl.1, wilder period p.2 gl.2))
        (a, b)).2 := by
  intro l
  induction l with
  | nil => intro a b ha hb _; exact ⟨ha, hb⟩
  | cons hd tl ih =>
    intro a b ha hb hl
    rw [List.foldl_cons]
    exact ih _ _
      (wilder_nonneg hp ha (hl hd (List.mem_cons_self hd tl)).1)
      (wilder_nonneg hp hb (hl hd (List.mem_cons_self hd tl)).2)
      (fun p hp2 => hl p (List.mem_cons_of_mem hd hp2))

theorem rsiFold_snd_zero (period : ℕ) :
    ∀ (l : List (ℚ × ℚ)) (a b : ℚ), b = 0 → (∀ p ∈ l, p.2 = 0) →
      (l.foldl
        (fun p gl => (wilder period p.1 gl.1, wilder period p.2 gl.2))
        (a, b)).2 = 0 := by
  intro l
  induction l with
  | nil => intro a b hb _; exact hb
  | cons hd tl ih =>
    intro a b hb hl
    rw [List.foldl_cons]
    apply ih
    · rw [hb, (hl hd (List.mem_cons_self hd tl))]
      exact wilder_zero period
    · exact fun p hp2 => hl p (List.mem_cons_of_mem hd hp2)

theorem rsiFold_fst_zero (period : ℕ) :
    ∀ (l : List (ℚ × ℚ)) (a b : ℚ), a = 0 → (∀ p ∈ l, p.1 = 0) →
      (l.foldl
        (fun p gl => (wilder period p.1 gl.1, wilder period p.2 gl.2))
        (a, b)).1 = 0 := by
  intro l
  induction l with
  | nil => intro a b ha _; exact ha
  | cons hd tl ih =>
    intro a b ha hl
    rw [List.foldl_cons]
    apply ih
    · rw [ha, (hl hd (List.mem_cons_self hd tl))]
      exact wilder_zero period
    · exact fun p hp2 => hl p (List.mem_cons_of_mem hd hp2)

theorem rsiAvgs_nonneg (close : List ℚ) (period : ℕ) (hp : 1 ≤ period) :
    0 ≤ (rsiAvgs close period).1 ∧ 0 ≤ (rsiAvgs close period).2 := by
  refine rsiFold_nonneg period hp _ _ _ ?_ ?_ ?_
  · refine div_nonneg (List.sum_nonneg ?_) (Nat.cast_nonneg period)
    exact fun v hv => rsiGains_nonneg close v (List.mem_of_mem_take hv)
  · refine div_nonneg (List.sum_nonneg ?_) (Nat.cast_nonneg period)
    exact fun v hv => rsiLosses_nonneg close v (List.mem_of_mem_take hv)
  · intro p hp2
    have hp3 : (p.1, p.2) ∈ ((rsiGains close).drop period).zip
        ((rsiLosses close).drop period) := by
      rw [Prod.mk.eta]
      exact hp2
    have h := List.of_mem_zip hp3
    exact ⟨rsiGains_nonneg close p.1 (List.mem_of_mem_drop h.1),
      rsiLosses_nonneg close p.2 (List.mem_of_mem_drop h.2)⟩

theorem rsiAvgs_snd_zero {close : List ℚ} (period : ℕ)
    (hz : ∀ v ∈ rsiLosses close, v = 0) : (rsiAvgs close period).2 = 0 := by
  refine rsiFold_snd_zero period _ _ _ ?_ ?_
  · rw [List.sum_eq_zero (fun v hv => hz v (List.mem_of_mem_take hv))]
    exact zero_div _
  · intro p hp2
    have hp3 : (p.1, p.2) ∈ ((rsiGains close).drop period).zip
        ((rsiLosses close).drop period) := by
      rw [Prod.mk.eta]
      exact hp2
    exact hz p.2 (List.mem_of_mem_drop (List.of_mem_zip hp3).2)

theorem rsiAvgs_fst_zero {close : List ℚ} (period : ℕ)
    (hz : ∀ v ∈ rsiGains close, v = 0) : (rsiAvgs close period).1 = 0 := by
  refine rsiFold_fst_zero period _ _ _ ?_ ?_
  · rw [List.sum_eq_zero (fun v hv => hz v (List.mem_of_mem_take hv))]
    exact zero_div _
  · intro p hp2
    have hp3 : (p.1, p.2) ∈ ((rsiGains close).drop period).zip
        ((rsiLosses close).drop period) := by
      rw [Prod.mk.eta]
      exact hp2
    exact hz p.1 (List.mem_of_mem_drop (List.of_mem_zip hp3).1)

/-- C4: RSI returns 50 for fewer than 15 points, 100 for a strictly
increasing 15-point series, 0 for a strictly decreasing 15-point series, and
always lies in [0, 100]. -/
theorem compute_rsi_spec :
    (∀ close : List ℚ, close.length < 15 → _compute_rsi close = 50) ∧
    (∀ close : List ℚ, close.length = 15 → close.Chain' (· < ·) →
      _compute_rsi close = 100) ∧
    (∀ close : List ℚ, close.length = 15 → close.Chain' (· > ·) →
      _compute_rsi close = 0) ∧
    (∀ close : List ℚ, 0 ≤ _compute_rsi close ∧ _compute_rsi close ≤ 100) := by
  have hrange : ∀ close : List ℚ,
      0 ≤ _compute_rsi close ∧ _compute_rsi close ≤ 100 := by
    intro close
    simp only [_compute_rsi]
    split_ifs with h1 h2
    · norm_num
    · norm_num
    · have hg := (rsiAvgs_nonneg close 14 (by norm_num)).1
      have hl := (rsiAvgs_nonneg close 14 (by norm_num)).2
      have hlpos : 0 < (rsiAvgs close 14).2 := lt_of_le_of_ne hl (Ne.symm h2)
      have hrs : 0 ≤ (rsiAvgs close 14).1 / (rsiAvgs close 14).2 :=
        div_nonneg hg hl
      have hub : 100 / (1 + (rsiAvgs close 14).1 / (rsiAvgs close 14).2) ≤ 100 :=
        div_le_self (by norm_num) (by linarith)
      have hlb : 0 < 100 / (1 + (rsiAvgs close 14).1 / (rsiAvgs close 14).2) :=
        div_pos (by norm_num) (by linarith)
      exact ⟨round2_nonneg (by linarith), round2_le_100 (by linarith)⟩
  refine ⟨?_, ?_, ?_, hrange⟩
  · intro close h
    simp only [_compute_rsi]
    rw [if_pos (by omega)]
  · intro close h15 hch
    simp only [_compute_rsi]
    rw [if_neg (by omega)]
    rw [if_pos (rsiAvgs_snd_zero 14 (rsiLosses_zero_of_inc hch))]
  · intro close h15 hch
    have hg0 : (rsiAvgs close 14).1 = 0 :=
      rsiAvgs_fst_zero 14 (rsiGains_zero_of_dec hch)
    have hdrop : (rsiGains close).drop 14 = [] :=
      List.drop_eq_nil_of_le (by rw [rsiGains_length, h15])
    have htake : (rsiLosses close).take 14 = rsiLosses close :=
      List.take_of_length_le (by rw [rsiLosses_length, h15])
    have hl2 : (rsiAvgs close 14).2 = (rsiLosses close).sum / 14 := by
      simp only [rsiAvgs, hdrop, List.zip_nil_left, List.foldl_nil, htake]
      norm_num
    have hne : rsiLosses close ≠ [] := by
      intro habs
      have := congrArg List.length habs
      rw [rsiLosses_length, h15] at this
      simp at this
    have hpos : 0 < (rsiAvgs close 14).2 := by
      rw [hl2]
      exact div_pos (List.sum_pos _ (rsiLosses_pos_of_dec hch) hne) (by norm_num)
    simp only [_compute_rsi]
    rw [if_neg (by omega), if_neg (ne_of_gt hpos), hg0, zero_div]
    rw [show (100 : ℚ) - 100 / (1 + 0) = 0 by norm_num, round2_zero]

/-- Witness for `compute_rsi_spec`: a constant 14-point series yields 50, the
increasing series 1..15 yields 100, and the decreasing series 15..1 yields
0. -/
theorem compute_rsi_spec_witness :
    _compute_rsi [1, 1, 1, 1, 1, 1, 1, 1, 1, 1, 1, 1, 1, 1] = 50 ∧
    _compute_rsi [1, 2, 3, 4, 5, 6, 7, 8, 9, 10, 11, 12, 13, 14, 15] = 100 ∧
    _compute_rsi [15, 14, 13, 12, 11, 10, 9, 8, 7, 6, 5, 4, 3, 2, 1] = 0 := by
  exact ⟨compute_rsi_spec.1 _ (by norm_num),
    compute_rsi_spec.2.1 _ (by norm_num)
      (by norm_num [List.chain'_cons, List.chain'_singleton]),
    compute_rsi_spec.2.2.1 _ (by norm_num)
      (by norm_num [List.chain'_cons, List.chain'_singleton])⟩

theorem getLastD_replicate (p : ℚ) :
    ∀ (n : ℕ) (d : ℚ), (List.replicate (n + 1) p).getLastD d = p := by
  intro n
  induction n with
  | zero => intro d; rfl
  | succ m ih =>
    intro d
    rw [List.replicate_succ, List.getLastD_cons]
    exact ih p

theorem mean_replicate {n : ℕ} (hn : n ≠ 0) (p : ℚ) :
    mean (List.replicate n p) = p := by
  unfold mean
  rw [List.sum_replicate, List.length_replicate, nsmul_eq_mul]
  have hcast : (n : ℚ) ≠ 0 := Nat.cast_ne_zero.2 hn
  field_simp

theorem sampleVar_replicate {n : ℕ} (hn : n ≠ 0) (p : ℚ) :
    sampleVar (List.replicate n p) = 0 := by
  unfold sampleVar
  simp only [List.map_replicate, mean_replicate hn, sub_self]
  rw [zero_pow (by norm_num : 2 ≠ 0), List.sum_replicate, smul_zero, zero_div]

/-- A constant price series of length at least 20 yields zero standard
deviation: all three bands collapse to the rounded price and the position is
"inside". -/
theorem bollinger_replicate (p : ℚ) (n : ℕ) (h : 20 ≤ n) :
    _compute_bollinger_bands (List.replicate n p) =
      (((round2 p : ℚ) : ℝ), ((round2 p : ℚ) : ℝ), ((round2 p : ℚ) : ℝ),
        "inside") := by
  have hlen : (List.replicate n p).length = n := List.length_replicate n p
  have hmin : min 20 n = 20 := by omega
  have hwd : listTail (List.replicate n p) 20 = List.replicate 20 p := by
    unfold listTail
    rw [hlen, List.drop_replicate]
    congr 1
    omega
  have hmean : mean (List.replicate 20 p) = p := mean_replicate (by norm_num) p
  have hvar : sampleVar (List.replicate 20 p) = 0 :=
    sampleVar_replicate (by norm_num) p
  have hlast : (List.replicate n p).getLastD 0 = p := by
    obtain ⟨m, rfl⟩ : ∃ m, n = m + 1 := ⟨n - 1, by omega⟩
    exact getLastD_replicate p m 0
  simp only [_compute_bollinger_bands, hlen, hmin, hwd, hmean, hvar, hlast]
  rw [if_pos (by norm_num : (1 : ℕ) < 20)]
  rw [Rat.cast_zero, Real.sqrt_zero, mul_zero, add_zero, sub_zero]
  rw [if_neg (lt_irrefl ((p : ℚ) : ℝ)), if_neg (lt_irrefl ((p : ℚ) : ℝ))]
  rw [round2_ratCast]

/-- C5 amended: for every nonempty close series the returned bands satisfy
`bb_lower ≤ bb_middle ≤ bb_upper`; for a constant-price series of length at
least 20 the three returned bands all equal the price rounded to two decimals
(hence the price itself whenever it has at most two decimal places) and the
position is "inside". -/
theorem bollinger_bands_spec :
    (∀ close : List ℚ, close ≠ [] →
      (_compute_bollinger_bands close).2.2.1 ≤
        (_compute_bollinger_bands close).2.1 ∧
      (_compute_bollinger_bands close).2.1 ≤ (_compute_bollinger_bands close).1) ∧
    (∀ (p : ℚ) (n : ℕ), 20 ≤ n →
      _compute_bollinger_bands (List.replicate n p) =
        (((round2 p : ℚ) : ℝ), ((round2 p : ℚ) : ℝ), ((round2 p : ℚ) : ℝ),
          "inside")) := by
  constructor
  · intro close _
    simp only [_compute_bollinger_bands]
    have hstd : (0 : ℝ) ≤
        (if 1 < min 20 close.length then
          Real.sqrt ((sampleVar (listTail close (min 20 close.length)) : ℚ) : ℝ)
        else 0) := by
      split_ifs
      · exact Real.sqrt_nonneg _
      · exact le_refl 0
    have h2 : (0 : ℝ) ≤ (((2 : ℚ) : ℚ) : ℝ) := by norm_num
    constructor
    · exact round2_mono (by nlinarith)
    · exact round2_mono (by nlinarith)
  · exact bollinger_replicate

/-- C5 counterexample: a constant 20-point series at price 1/3 returns a
middle band of 33/100 (the price rounded to two decimals), not the price
itself. -/
theorem bollinger_bands_cex :
    (_compute_bollinger_bands (List.replicate 20 ((1 : ℚ) / 3))).2.1 ≠
      (((1 : ℚ) / 3 : ℚ) : ℝ) := by
  rw [bollinger_replicate ((1 : ℚ) / 3) 20 (by norm_num)]
  have hr : round2 ((1 : ℚ) / 3) = 33 / 100 := by
    norm_num [round2, pyRound]
  rw [hr]
  show ((33 / 100 : ℚ) : ℝ) ≠ (((1 : ℚ) / 3 : ℚ) : ℝ)
  exact_mod_cast (by norm_num : (33 / 100 : ℚ) ≠ 1 / 3)

/-- Witness for `bollinger_bands_spec`: the singleton series satisfies the
band ordering; the constant 20-point series at 5 collapses to
(5, 5, 5, "inside"). -/
theorem bollinger_bands_spec_witness :
    ((_compute_bollinger_bands [1]).2.2.1 ≤ (_compute_bollinger_bands [1]).2.1 ∧
     (_compute_bollinger_bands [1]).2.1 ≤ (_compute_bollinger_bands [1]).1) ∧
    _compute_bollinger_bands (List.replicate 20 (5 : ℚ)) =
      (((round2 (5 : ℚ) : ℚ) : ℝ), ((round2 (5 : ℚ) : ℚ) : ℝ),
        ((round2 (5 : ℚ) : ℚ) : ℝ), "inside") :=
  ⟨bollinger_bands_spec.1 [1] (by simp), bollinger_bands_spec.2 5 20 (by norm_num)⟩

theorem coerceSentiment_mem (j : Json) : coerceSentiment j ∈ VALID_SENTIMENTS := by
  cases j with
  | str s =>
    simp only [coerceSentiment]
    split_ifs with h
    · exact h
    · decide
  | null => decide
  | bool b => exact (by decide : ("neutral" : String) ∈ VALID_SENTIMENTS)
  | num q => exact (by decide : ("neutral" : String) ∈ VALID_SENTIMENTS)
  | nonfinite v => exact (by decide : ("neutral" : String) ∈ VALID_SENTIMENTS)
  | arr l => exact (by decide : ("neutral" : String) ∈ VALID_SENTIMENTS)
  | obj kvs => exact (by decide : ("neutral" : String) ∈ VALID_SENTIMENTS)

theorem coerceBias_mem (j : Json) : coerceBias j ∈ VALID_BIASES := by
  cases j with
  | str s =>
    simp only [coerceBias]
    split_ifs with h
    · exact h
    · decide
  | null => decide
  | bool b => exact (by decide : ("uncertain" : String) ∈ VALID_BIASES)
  | num q => exact (by decide : ("uncertain" : String) ∈ VALID_BIASES)
  | nonfinite v => exact (by decide : ("uncertain" : String) ∈ VALID_BIASES)
  | arr l => exact (by decide : ("uncertain" : String) ∈ VALID_BIASES)
  | obj kvs => exact (by decide : ("uncertain" : String) ∈ VALID_BIASES)

theorem coerceStrList_length_le (j : Json) : (coerceStrList j).length ≤ 5 := by
  simp only [coerceStrList, List.length_map, List.length_take]
  omega

theorem coerceStrList_not_arr (j : Json) (h : j.isArr = false) :
    coerceStrList j = [pyStr j] := by
  cases j with
  | arr l => simp [Json.isArr] at h
  | null => rfl
  | bool b => rfl
  | num q => rfl
  | nonfinite v => rfl
  | str s => rfl
  | obj kvs => rfl

theorem coerceConfidence_ok_bounds {j : Json} {z : ℤ}
    (h : coerceConfidence j = .ok z) : 0 ≤ z ∧ z ≤ 100 := by
  have hmm : ∀ w : ℤ, z = max 0 (min 100 w) → 0 ≤ z ∧ z ≤ 100 := by
    intro w hw
    omega
  cases j with
  | num q => injection h with h; exact hmm _ h.symm
  | bool b => injection h with h; exact hmm _ h.symm
  | nonfinite v => cases v <;> simp [coerceConfidence] at h
  | null => injection h with h; exact hmm _ h.symm
  | str s => injection h with h; exact hmm _ h.symm
  | arr l => injection h with h; exact hmm _ h.symm
  | obj kvs => injection h with h; exact hmm _ h.symm

theorem coerceConfidence_ne_jsonDecode (j : Json) :
    coerceConfidence j ≠ .error .jsonDecode := by
  cases j with
  | num q => simp [coerceConfidence]
  | bool b => simp [coerceConfidence]
  | nonfinite v => cases v <;> simp [coerceConfidence]
  | null => simp [coerceConfidence]
  | str s => simp [coerceConfidence]
  | arr l => simp [coerceConfidence]
  | obj kvs => simp [coerceConfidence]

theorem validate_ne_jsonDecode (j : Json) :
    _validate_analysis j ≠ .error .jsonDecode := by
  cases j with
  | obj kvs =>
    simp only [_validate_analysis]
    split_ifs
    · simp
    · simp
    · cases hc : coerceConfidence ((jGet (.obj kvs) "confidence_0_100").getD
          (.num 50)) with
      | error e =>
        simp only [hc]
        intro h
        injection h with h
        exact coerceConfidence_ne_jsonDecode _ (by rw [hc, h])
      | ok c => simp [hc]
  | null => simp [_validate_analysis]
  | bool b => simp [_validate_analysis]
  | num q => simp [_validate_analysis]
  | nonfinite v => simp [_validate_analysis]
  | str s => simp [_validate_analysis]
  | arr l => simp [_validate_analysis]

/-- Characterisation of a successful validation: the input is a dict, the
sentiment/bias values are hashable, the confidence coercion does not raise,
and the result is the field-by-field coercion. -/
theorem validate_ok_iff (data : Json) (r : AnalysisResult) :
    _validate_analysis data = .ok r ↔
      data.isObj = true ∧
      ((jGet data "news_sentiment").getD (.str "neutral")).unhashable = false ∧
      ((jGet data "directional_bias").getD (.str "uncertain")).unhashable = false ∧
      ∃ c, coerceConfidence ((jGet data "confidence_0_100").getD (.num 50)) =
          .ok c ∧
        r = { news_sentiment :=
                coerceSentiment ((jGet data "news_sentiment").getD (.str "neutral")),
              key_drivers :=
                coerceStrList ((jGet data "key_drivers").getD (.arr [])),
              risk_factors :=
                coerceStrList ((jGet data "risk_factors").getD (.arr [])),
              directional_bias :=
                coerceBias ((jGet data "directional_bias").getD (.str "uncertain")),
              confidence_0_100 := c,
              one_paragraph_rationale :=
                pyStr ((jGet data "one_paragraph_rationale").getD
                  (.str "No rationale provided.")) } := by
  cases data with
  | obj kvs =>
    simp only [_validate_analysis, Json.isObj]
    split_ifs with h1 h2
    · simp [h1]
    · simp [h2]
    · simp only [Bool.not_eq_true] at h1 h2
      cases hc : coerceConfidence ((jGet (.obj kvs) "confidence_0_100").getD
          (.num 50)) with
      | error e =>
        simp only [hc]
        constructor
        · intro h
          exact absurd h (by simp)
        · rintro ⟨-, -, -, c1, hc1, rfl⟩
          exact absurd hc1 (by simp)
      | ok c0 =>
        simp only [hc]
        constructor
        · intro h
          injection h with h
          exact ⟨by trivial, h1, h2, c0, rfl, h.symm⟩
        · rintro ⟨-, -, -, c1, hc1, rfl⟩
          injection hc1 with hc1
          rw [hc1]
  | null => simp [_validate_analysis, Json.isObj]
  | bool b => simp [_validate_analysis, Json.isObj]
  | num q => simp [_validate_analysis, Json.isObj]
  | nonfinite v => simp [_validate_analysis, Json.isObj]
  | str s => simp [_validate_analysis, Json.isObj]
  | arr l => simp [_validate_analysis, Json.isObj]

/-- C6 amended: the parser raises a JSON-decode error exactly when the
fence-stripped text fails to parse; a parsed value that is not an object
raises (`.get` on a non-dict); an object whose sentiment/bias values are
unhashable (arrays/objects) raises in the enum-membership test; a
`confidence_0_100` value of NaN raises `ValueError` and one of ±Infinity
raises `OverflowError` at `int()` (non-finite floats are valid JSON for
`json.loads`); on every other object validation only coerces: invalid
sentiment becomes "neutral" and invalid bias "uncertain", non-list
drivers/risks become a singleton of their string form, lists are truncated
to 5 stringified entries, confidence is clamped to [0, 100] (Python bools
count as numeric) and defaults to 50 when missing or non-numeric, and a
missing rationale becomes the fixed placeholder. -/
theorem parse_analysis_spec :
    (∀ (parseJson : String → Option Json) (raw : String),
      _parse_analysis parseJson raw = .error .jsonDecode ↔
        parseJson (_strip_fences raw) = none) ∧
    (∀ j : Json, j.isObj = false →
      _validate_analysis j = .error .attributeError) ∧
    (∀ kvs : List (String × Json),
      (∀ j, jGet (.obj kvs) "news_sentiment" = some j → j.unhashable = false) →
      (∀ j, jGet (.obj kvs) "directional_bias" = some j → j.unhashable = false) →
      (jGet (.obj kvs) "confidence_0_100" = some (.nonfinite .nan) →
        _validate_analysis (.obj kvs) = .error .valueError) ∧
      (∀ v, v ≠ PyNonFinite.nan →
        jGet (.obj kvs) "confidence_0_100" = some (.nonfinite v) →
        _validate_analysis (.obj kvs) = .error .overflowError) ∧
      ((∀ v, jGet (.obj kvs) "confidence_0_100" ≠ some (.nonfinite v)) →
        ∃ r, _validate_analysis (.obj kvs) = .ok r)) ∧
    (∀ (data : Json) (r : AnalysisResult), _validate_analysis data = .ok r →
      r.news_sentiment ∈ VALID_SENTIMENTS ∧
      (∀ s, jGet data "news_sentiment" = some (.str s) →
        s ∉ VALID_SENTIMENTS → r.news_sentiment = "neutral") ∧
      (∀ s, jGet data "news_sentiment" = some (.str s) →
        s ∈ VALID_SENTIMENTS → r.news_sentiment = s) ∧
      r.directional_bias ∈ VALID_BIASES ∧
      (∀ s, jGet data "directional_bias" = some (.str s) →
        s ∉ VALID_BIASES → r.directional_bias = "uncertain") ∧
      (∀ j, jGet data "key_drivers" = some j → j.isArr = false →
        r.key_drivers = [pyStr j]) ∧
      (∀ l, jGet data "key_drivers" = some (.arr l) →
        r.key_drivers = (l.take 5).map pyStr) ∧
      r.key_drivers.length ≤ 5 ∧
      (∀ j, jGet data "risk_factors" = some j → j.isArr = false →
        r.risk_factors = [pyStr j]) ∧
      (∀ l, jGet data "risk_factors" = some (.arr l) →
        r.risk_factors = (l.take 5).map pyStr) ∧
      r.risk_factors.length ≤ 5 ∧
      0 ≤ r.confidence_0_100 ∧ r.confidence_0_100 ≤ 100 ∧
      (jGet data "confidence_0_100" = none → r.confidence_0_100 = 50) ∧
      (∀ q, jGet data "confidence_0_100" = some (.num q) →
        r.confidence_0_100 = max 0 (min 100 (pyInt q))) ∧
      (∀ j, jGet data "confidence_0_100" = some j →
        (∀ q, j ≠ .num q) → (∀ b, j ≠ .bool b) →
        (∀ v, j ≠ .nonfinite v) → r.confidence_0_100 = 50) ∧
      (jGet data "one_paragraph_rationale" = none →
        r.one_paragraph_rationale = "No rationale provided.")) := by
  refine ⟨?_, ?_, ?_, ?_⟩
  · intro parseJson raw
    cases h : parseJson (_strip_fences raw) with
    | none => simp [_parse_analysis, h]
    | some v => simp [_parse_analysis, h, validate_ne_jsonDecode v]
  · intro j h
    cases j with
    | obj kvs => simp [Json.isObj] at h
    | null => rfl
    | bool b => rfl
    | num q => rfl
    | nonfinite v => rfl
    | str s => rfl
    | arr l => rfl
  · intro kvs h1 h2
    have hs : ((jGet (.obj kvs) "news_sentiment").getD
        (.str "neutral")).unhashable = false := by
      cases hj : jGet (.obj kvs) "news_sentiment" with
      | none => rfl
      | some v =>
        rw [Option.getD_some]
        exact h1 v hj
    have hb : ((jGet (.obj kvs) "directional_bias").getD
        (.str "uncertain")).unhashable = false := by
      cases hj : jGet (.obj kvs) "directional_bias" with
      | none => rfl
      | some v =>
        rw [Option.getD_some]
        exact h2 v hj
    have hs' : ¬(((jGet (.obj kvs) "news_sentiment").getD
        (.str "neutral")).unhashable = true) := by
      simp [hs]
    have hb' : ¬(((jGet (.obj kvs) "directional_bias").getD
        (.str "uncertain")).unhashable = true) := by
      simp [hb]
    refine ⟨?_, ?_, ?_⟩
    · intro hj
      simp only [_validate_analysis]
      rw [if_neg hs', if_neg hb', hj]
      rfl
    · intro v hvn hj
      cases v with
      | nan => exact absurd rfl hvn
      | inf =>
        simp only [_validate_analysis]
        rw [if_neg hs', if_neg hb', hj]
        rfl
      | ninf =>
        simp only [_validate_analysis]
        rw [if_neg hs', if_neg hb', hj]
        rfl
    · intro hnf
      have hco : ∃ c, coerceConfidence
          ((jGet (.obj kvs) "confidence_0_100").getD (.num 50)) = .ok c := by
        cases hj : jGet (.obj kvs) "confidence_0_100" with
        | none => exact ⟨_, rfl⟩
        | some j =>
          cases j with
          | nonfinite v => exact absurd hj (hnf v)
          | num q => exact ⟨_, rfl⟩
          | bool b => exact ⟨_, rfl⟩
          | null => exact ⟨_, rfl⟩
          | str s2 => exact ⟨_, rfl⟩
          | arr l => exact ⟨_, rfl⟩
          | obj kvs2 => exact ⟨_, rfl⟩
      obtain ⟨c0, hco⟩ := hco
      exact ⟨_, (validate_ok_iff (.obj kvs) _).2 ⟨rfl, hs, hb, c0, hco, rfl⟩⟩
  · intro data r hok
    rw [validate_ok_iff] at hok
    obtain ⟨hobj, hs, hb, c, hc, rfl⟩ := hok
    refine ⟨coerceSentiment_mem _, ?_, ?_, coerceBias_mem _, ?_, ?_, ?_,
      coerceStrList_length_le _, ?_, ?_, coerceStrList_length_le _,
      (coerceConfidence_ok_bounds hc).1, (coerceConfidence_ok_bounds hc).2,
      ?_, ?_, ?_, ?_⟩
    · intro s hjs hns
      simp only [hjs, Option.getD_some, coerceSentiment, if_neg hns]
    · intro s hjs hns
      simp only [hjs, Option.getD_some, coerceSentiment, if_pos hns]
    · intro s hjs hns
      simp only [hjs, Option.getD_some, coerceBias, if_neg hns]
    · intro j hj hna
      simp only [hj, Option.getD_some]
      exact coerceStrList_not_arr j hna
    · intro l hj
      simp only [hj, Option.getD_some]
      rfl
    · intro j hj hna
      simp only [hj, Option.getD_some]
      exact coerceStrList_not_arr j hna
    · intro l hj
      simp only [hj, Option.getD_some]
      rfl
    · intro h
      rw [h, Option.getD_none] at hc
      injection hc with hc
      show c = 50
      rw [← hc]
      norm_num [pyInt]
    · intro q hj
      rw [hj, Option.getD_some] at hc
      injection hc with hc
      show c = max 0 (min 100 (pyInt q))
      exact hc.symm
    · intro j hj hq hb2 hnfv
      rw [hj, Option.getD_some] at hc
      show c = 50
      cases j with
      | num q => exact absurd rfl (hq q)
      | bool b => exact absurd rfl (hb2 b)
      | nonfinite v => exact absurd rfl (hnfv v)
      | null =>
        injection hc with hc
        rw [← hc]
        norm_num [pyInt]
      | str s =>
        injection hc with hc
        rw [← hc]
        norm_num [pyInt]
      | arr l =>
        injection hc with hc
        rw [← hc]
        norm_num [pyInt]
      | obj kvs =>
        injection hc with hc
        rw [← hc]
        norm_num [pyInt]
    · intro h
      show pyStr ((jGet data "one_paragraph_rationale").getD
        (.str "No rationale provided.")) = "No rationale provided."
      rw [h, Option.getD_none]
      rfl

/-- C6 counterexample: the input "42" is valid JSON (parsing succeeds and
yields the number 42), yet `_parse_analysis` raises — `.get` on the non-dict
value is an `AttributeError`; an object whose `news_sentiment` is a list
raises `TypeError` in the set-membership test; and an object whose
`confidence_0_100` is NaN (valid JSON for `json.loads`) raises `ValueError`
at `int()`. -/
theorem parse_analysis_raises_cex :
    _parse_analysis (fun s => if s = "42" then some (Json.num 42) else none)
      "42" = .error .attributeError ∧
    (fun s => if s = "42" then some (Json.num 42) else none)
      (_strip_fences "42") ≠ none ∧
    _validate_analysis (.obj [("news_sentiment", .arr [])]) =
      .error .typeError ∧
    _validate_analysis (.obj [("confidence_0_100", .nonfinite .nan)]) =
      .error .valueError := by
  refine ⟨rfl, ?_, rfl, rfl⟩
  intro h
  exact Option.noConfusion (show some (Json.num 42) = none from h)

/-- Witness for `parse_analysis_spec`: an object with an unrecognized
sentiment string validates successfully (coerced), a bare number raises
`AttributeError`, and the validated result of the former has sentiment
"neutral". -/
theorem parse_analysis_spec_witness :
    (∃ r, _validate_analysis (.obj [("news_sentiment", .str "INVALID")]) =
      .ok r) ∧
    _validate_analysis (.num 42) = .error .attributeError ∧
    ({ news_sentiment := "neutral", key_drivers := [], risk_factors := [],
       directional_bias := "uncertain", confidence_0_100 := 50,
       one_paragraph_rationale :=
         "No rationale provided." } : AnalysisResult).news_sentiment ∈
      VALID_SENTIMENTS := by
  refine ⟨?_, parse_analysis_spec.2.1 (Json.num 42) rfl, ?_⟩
  · refine (parse_analysis_spec.2.2.1 [("news_sentiment", .str "INVALID")]
      ?_ ?_).2.2 ?_
    · intro j hj
      have hj' : some (Json.str "INVALID") = some j := hj
      rw [← Option.some.inj hj']
      rfl
    · intro j hj
      exact absurd (show (none : Option Json) = some j from hj) (by simp)
    · intro v hj
      exact absurd (show (none : Option Json) = some (.nonfinite v) from hj)
        (by simp)
  · exact (parse_analysis_spec.2.2.2
      (.obj [("news_sentiment", .str "INVALID")]) _ (by rfl)).1

end SignalPipeline
